import Mathlib

/-!
# Verification of the RAP MIDI Generator's transport and rendering engine

A shallow embedding, in Lean 4, of the timing, scheduling, mixing, rendering
and binary-serialization logic of the repository, together with theorems that
settle the frozen claims C1..C10 about it.

Conventions of the embedding:

* JavaScript `number` arithmetic on musical quantities (ticks, seconds, gains)
  is embedded as exact rational arithmetic over `ℚ`.  The code only adds,
  multiplies and divides; no claim depends on floating-point rounding and the
  spec itself states its identities "within floating-point tolerance; exactly,
  over exact arithmetic".
* Byte-level quantities (the MIDI writer) are embedded as `ℕ` with explicit
  `% 256` where the code masks with `& 0xFF` and truncating division where it
  shifts right.  JavaScript bitwise operators work on 32-bit integers; every
  theorem about the byte writer carries hypotheses keeping all intermediate
  values inside the range where 32-bit bitwise arithmetic agrees with exact
  natural-number arithmetic (noted at each definition).
* Web-Audio side effects (oscillators, gain-parameter automation, buffer
  sources, `requestAnimationFrame`) are embedded as the pure data they
  schedule: lists of parameter-automation events, start/stop times, and
  explicit state for the handle registry.
-/

/-- `constants.ts`: `export const TICKS_PER_QUARTER_NOTE = 256`. -/
def TICKS_PER_QUARTER_NOTE : ℕ := 256

/-- `DAW.tsx` (also defined identically in `audioPlayback.ts`):
`ticksToSeconds(ticks, bpm)` computes `secondsPerQuarter = 60 / bpm`,
`secondsPerTick = secondsPerQuarter / TICKS_PER_QUARTER_NOTE` and returns
`ticks * secondsPerTick`. -/
def ticksToSeconds (ticks bpm : ℚ) : ℚ :=
  let secondsPerQuarter := 60 / bpm
  let secondsPerTick := secondsPerQuarter / (TICKS_PER_QUARTER_NOTE : ℚ)
  ticks * secondsPerTick

/-- `DAW.tsx`: `secondsToTicks(seconds, bpm)` computes
`secondsPerQuarter = 60 / bpm`, `ticksPerSecond =
TICKS_PER_QUARTER_NOTE / secondsPerQuarter` and returns
`seconds * ticksPerSecond`. -/
def secondsToTicks (seconds bpm : ℚ) : ℚ :=
  let secondsPerQuarter := 60 / bpm
  let ticksPerSecond := (TICKS_PER_QUARTER_NOTE : ℚ) / secondsPerQuarter
  seconds * ticksPerSecond

/-- `types.ts`: a pitched note event.  `velocity` is a real in (0,1]. -/
structure MelodyNote where
  midiNote : ℕ
  startTick : ℕ
  durationTicks : ℕ
  velocity : ℚ
deriving DecidableEq, Repr

/-- The tick→seconds conversion is additive in the tick argument. -/
theorem ticksToSeconds_add (a b bpm : ℚ) :
    ticksToSeconds (a + b) bpm = ticksToSeconds a bpm + ticksToSeconds b bpm := by
  unfold ticksToSeconds
  ring

/-- Non-negative ticks convert to a non-negative time when the tempo is
positive. -/
theorem ticksToSeconds_nonneg {ticks bpm : ℚ} (ht : 0 ≤ ticks) (hb : 0 < bpm) :
    0 ≤ ticksToSeconds ticks bpm := by
  unfold ticksToSeconds
  have h60 : 0 ≤ 60 / bpm := by positivity
  have : 0 ≤ 60 / bpm / (TICKS_PER_QUARTER_NOTE : ℚ) := by positivity
  exact mul_nonneg ht this

/-- C9.  For ticks ≥ 0 and bpm > 0 the Tempo Clock satisfies
`ticksToSeconds(ticks, bpm) = ticks * (60 / bpm) / 256`, and
`secondsToTicks` is its exact inverse, so the round trip
`secondsToTicks(ticksToSeconds(ticks, bpm), bpm)` returns `ticks` exactly
over exact arithmetic. -/
theorem c9_tempo_clock_round_trip (ticks bpm : ℚ) (ht : 0 ≤ ticks) (hb : 0 < bpm) :
    ticksToSeconds ticks bpm = ticks * (60 / bpm) / 256 ∧
    secondsToTicks (ticksToSeconds ticks bpm) bpm = ticks := by
  have hbpm : bpm ≠ 0 := ne_of_gt hb
  constructor
  · unfold ticksToSeconds
    norm_num [TICKS_PER_QUARTER_NOTE, mul_div_assoc]
  · have htp : (TICKS_PER_QUARTER_NOTE : ℚ) ≠ 0 := by norm_num [TICKS_PER_QUARTER_NOTE]
    unfold ticksToSeconds secondsToTicks
    field_simp
    ring

/-- Witness for C9 at ticks = 512, bpm = 120: the conversion gives exactly
one second and the round trip restores 512 ticks. -/
theorem c9_tempo_clock_round_trip_witness :
    (0 : ℚ) ≤ 512 ∧ (0 : ℚ) < 120 ∧
    (ticksToSeconds 512 120 = 512 * (60 / 120) / 256 ∧
      secondsToTicks (ticksToSeconds 512 120) 120 = 512) :=
  ⟨by norm_num, by norm_num, c9_tempo_clock_round_trip 512 120 (by norm_num) (by norm_num)⟩

/-!
## Binary note-file writer: variable-length quantities (`midiGenerator.ts`)

`writeVariableLength` packs the value's upper 7-bit groups into an
accumulator `buffer` (first `while` loop) and then emits `buffer` byte by
byte, low byte first, until a byte without the continuation bit is emitted
(second `while` loop).

JavaScript fidelity: the source uses 32-bit bitwise operators (`&`, `|`,
`<<`, `>>`).  For inputs below `2^28` (a four-group quantity, the maximum
the MIDI format itself admits) the accumulator stays below `2^31` and every
bitwise step coincides with the exact `ℕ` arithmetic used here
(`& 0x7F` = `% 128`, `>>= 7` = `/ 128`, `<<= 8` followed by `|` of a byte
= `* 256 + byte`, `& 0xFF` = `% 256`, the `& 0x80` test = `% 256 ≥ 128`,
`>>= 8` = `/ 256`).  The claim theorems therefore restrict to `n < 2^28`.
-/

/-- First loop of `writeVariableLength`: `while ((value >>= 7) > 0) {
buffer <<= 8; buffer |= 0x80 | (value & 0x7F); }`. -/
def vlqBuildBuffer (value buffer : ℕ) : ℕ :=
  if h : 0 < value / 128 then
    vlqBuildBuffer (value / 128) (buffer * 256 + (128 + value / 128 % 128))
  else buffer
termination_by value
decreasing_by
  exact Nat.div_lt_self (lt_of_lt_of_le h (Nat.div_le_self _ _)) (by norm_num)

/-- Second loop of `writeVariableLength`: `while (true) { bytes.push(buffer
& 0xFF); if (buffer & 0x80) { buffer >>= 8; } else { break; } }`. -/
def vlqEmitBytes (buffer : ℕ) : List ℕ :=
  if h : 128 ≤ buffer % 256 then buffer % 256 :: vlqEmitBytes (buffer / 256)
  else [buffer % 256]
termination_by buffer
decreasing_by
  exact Nat.div_lt_self
    (lt_of_lt_of_le (by norm_num) (le_trans h (Nat.mod_le _ _))) (by norm_num)

/-- `midiGenerator.ts`: `writeVariableLength(value)` with
`buffer = value & 0x7F` initially. -/
def writeVariableLength (value : ℕ) : List ℕ :=
  vlqEmitBytes (vlqBuildBuffer value (value % 128))

/-- The 7-bit groups of `n`, most-significant group first (the base-128
digits of `n`); used to state the spec's description of the encoding. -/
def vlqGroups (n : ℕ) : List ℕ :=
  if n < 128 then [n] else vlqGroups (n / 128) ++ [n % 128]
termination_by n
decreasing_by
  exact Nat.div_lt_self (by omega) (by norm_num)

/-- Set the continuation bit (add `0x80`) on every group except the final
one — the spec's "continuation bit on all but the final group". -/
def addContinuationBits : List ℕ → List ℕ
  | [] => []
  | [b] => [b]
  | b :: c :: rest => (b + 128) :: addContinuationBits (c :: rest)

/-- The standard variable-length-quantity decoder: accumulate 7 bits per
byte, most-significant first, stopping at the first byte without the
continuation bit. -/
def vlqDecode : List ℕ → ℕ → ℕ
  | [], acc => acc
  | b :: rest, acc =>
    if 128 ≤ b then vlqDecode rest (acc * 128 + (b - 128)) else acc * 128 + b

/-- All continuation groups of `w` (empty when `w = 0`): the base-128
digits of `w`, most significant first, each with the continuation bit set. -/
def contGroups (w : ℕ) : List ℕ :=
  if w = 0 then [] else (vlqGroups w).map (· + 128)

theorem vlqGroups_ne_nil (n : ℕ) : vlqGroups n ≠ [] := by
  unfold vlqGroups
  split <;> simp

theorem vlqGroups_lt (n : ℕ) : ∀ g ∈ vlqGroups n, g < 128 := by
  induction n using Nat.strong_induction_on with
  | _ n ih =>
    unfold vlqGroups
    split
    · intro g hg
      simp at hg
      omega
    · intro g hg
      simp at hg
      rcases hg with hg | hg
      · exact ih (n / 128) (Nat.div_lt_self (by omega) (by norm_num)) g hg
      · omega

theorem contGroups_step (w : ℕ) (hw : 0 < w) :
    contGroups w = contGroups (w / 128) ++ [w % 128 + 128] := by
  have hw' : w ≠ 0 := by omega
  rcases Nat.lt_or_ge w 128 with h | h
  · have h1 : w / 128 = 0 := Nat.div_eq_of_lt h
    have h2 : w % 128 = w := Nat.mod_eq_of_lt h
    rw [h1, h2]
    rw [show contGroups 0 = [] from rfl]
    rw [contGroups, if_neg hw']
    rw [vlqGroups, if_pos h]
    simp
  · have h2 : w / 128 ≠ 0 := by
      have h3 : 1 ≤ w / 128 := (Nat.one_le_div_iff (by norm_num)).mpr h
      omega
    rw [contGroups, if_neg hw', contGroups, if_neg h2]
    conv_lhs => rw [vlqGroups]
    rw [if_neg (Nat.not_lt.mpr h)]
    simp

theorem vlqEmitBytes_small {b : ℕ} (hb : b < 128) : vlqEmitBytes b = [b] := by
  unfold vlqEmitBytes
  have h1 : b % 256 = b := Nat.mod_eq_of_lt (by omega)
  simp [h1, Nat.not_le.mpr hb]

theorem vlqEmitBytes_cont (buffer r : ℕ) (h128 : 128 ≤ r) (h256 : r < 256) :
    vlqEmitBytes (buffer * 256 + r) = r :: vlqEmitBytes buffer := by
  have hmod : (buffer * 256 + r) % 256 = r := by omega
  have hdiv : (buffer * 256 + r) / 256 = buffer := by omega
  rw [vlqEmitBytes]
  simp [hmod, h128, hdiv]

theorem vlqEmitBytes_vlqBuildBuffer (value : ℕ) : ∀ buffer : ℕ,
    vlqEmitBytes (vlqBuildBuffer value buffer) =
      contGroups (value / 128) ++ vlqEmitBytes buffer := by
  induction value using Nat.strong_induction_on with
  | _ value ih =>
    intro buffer
    by_cases h : 0 < value / 128
    · rw [vlqBuildBuffer]
      simp only [h, dif_pos]
      have hlt : value / 128 < value :=
        Nat.div_lt_self (lt_of_lt_of_le h (Nat.div_le_self _ _)) (by norm_num)
      rw [ih (value / 128) hlt]
      have hr : value / 128 % 128 + 128 < 256 := by
        have := Nat.mod_lt (value / 128) (y := 128) (by norm_num)
        omega
      rw [show buffer * 256 + (128 + value / 128 % 128)
            = buffer * 256 + (value / 128 % 128 + 128) by ring]
      rw [vlqEmitBytes_cont buffer _ (by omega) hr]
      rw [contGroups_step (value / 128) h]
      simp
    · rw [vlqBuildBuffer]
      have h0 : value / 128 = 0 := by omega
      simp [h0, contGroups]

/-- Structure of the encoder's output: the continuation groups of the high
part followed by the final low 7-bit group. -/
theorem writeVariableLength_eq_contGroups (n : ℕ) :
    writeVariableLength n = contGroups (n / 128) ++ [n % 128] := by
  unfold writeVariableLength
  rw [vlqEmitBytes_vlqBuildBuffer]
  rw [vlqEmitBytes_small (Nat.mod_lt _ (by norm_num))]

theorem addContinuationBits_append_singleton (l : List ℕ) (x : ℕ) (hl : l ≠ []) :
    addContinuationBits (l ++ [x]) = l.map (· + 128) ++ [x] := by
  induction l with
  | nil => simp at hl
  | cons a t ihl =>
    cases t with
    | nil => simp [addContinuationBits]
    | cons b t2 =>
      have := ihl (by simp)
      simp only [List.cons_append, List.append_eq, addContinuationBits,
        List.map_cons] at this ⊢
      rw [this]

/-- The spec-side description of the encoding ("7-bit groups, continuation
bit on all but the final group, most-significant group first") agrees with
the imperative encoder. -/
theorem writeVariableLength_eq_spec (n : ℕ) :
    writeVariableLength n = addContinuationBits (vlqGroups n) := by
  rw [writeVariableLength_eq_contGroups]
  by_cases h : n < 128
  · have h1 : n / 128 = 0 := Nat.div_eq_of_lt h
    have h2 : n % 128 = n := Nat.mod_eq_of_lt h
    rw [h1, h2]
    unfold vlqGroups
    simp [contGroups, addContinuationBits, h]
  · conv_rhs => rw [vlqGroups]
    simp only [h, if_false]
    rw [addContinuationBits_append_singleton _ _ (vlqGroups_ne_nil _)]
    have hd : n / 128 ≠ 0 := by
      have : 128 ≤ n := by omega
      have := Nat.one_le_div_iff (by norm_num : (0:ℕ) < 128) |>.mpr this
      omega
    simp [contGroups, hd]

theorem contGroups_length_step (w : ℕ) (hw : 0 < w) :
    (contGroups w).length = (contGroups (w / 128)).length + 1 := by
  rw [contGroups_step w hw]
  simp

theorem vlqDecode_contGroups (w : ℕ) : ∀ acc : ℕ, ∀ rest : List ℕ,
    vlqDecode (contGroups w ++ rest) acc =
      vlqDecode rest (acc * 128 ^ (contGroups w).length + w) := by
  induction w using Nat.strong_induction_on with
  | _ w ih =>
    intro acc rest
    by_cases h : w = 0
    · simp [h, contGroups]
    · rw [contGroups_step w (by omega)]
      rw [List.append_assoc]
      rw [ih (w / 128) (Nat.div_lt_self (by omega) (by norm_num))]
      have hlen : (contGroups (w / 128) ++ [w % 128 + 128]).length
          = (contGroups (w / 128)).length + 1 := by simp
      rw [hlen]
      simp only [List.cons_append, vlqDecode, List.nil_append]
      rw [if_pos (by omega : 128 ≤ w % 128 + 128)]
      have harith : (acc * 128 ^ (contGroups (w / 128)).length + w / 128) * 128
            + (w % 128 + 128 - 128)
          = acc * 128 ^ ((contGroups (w / 128)).length + 1) + w := by
        have h1 : w % 128 + 128 - 128 = w % 128 := by omega
        rw [h1, pow_succ]
        calc (acc * 128 ^ (contGroups (w / 128)).length + w / 128) * 128 + w % 128
            = acc * (128 ^ (contGroups (w / 128)).length * 128)
                + (w / 128 * 128 + w % 128) := by ring
          _ = acc * (128 ^ (contGroups (w / 128)).length * 128) + w := by omega
      rw [harith]
      simp

/-- Decoding the encoder's output restores the value. -/
theorem vlqDecode_writeVariableLength (n : ℕ) :
    vlqDecode (writeVariableLength n) 0 = n := by
  rw [writeVariableLength_eq_contGroups, vlqDecode_contGroups]
  have hmod : ¬ (128 ≤ n % 128) := by omega
  simp only [vlqDecode, if_neg hmod, Nat.zero_mul, Nat.zero_add]
  omega

/-- C8.  For every `n < 2^28` (the range on which the source's 32-bit
bitwise arithmetic is exact, covering the format's four-group maximum
`2^28 - 1`): the encoder emits the 7-bit groups of `n` most-significant
group first with the continuation bit set on every group but the final one,
and composing with the standard variable-length-quantity decoder is the
identity; in particular this holds at the boundary values 0, 127, 128,
16383, 16384 and 2097151. -/
theorem c8_vlq_round_trip (n : ℕ) (h : n < 2 ^ 28) :
    writeVariableLength n = addContinuationBits (vlqGroups n) ∧
    vlqDecode (writeVariableLength n) 0 = n :=
  ⟨writeVariableLength_eq_spec n, vlqDecode_writeVariableLength n⟩

/-- Witness for C8: the round trip at each claimed boundary value. -/
theorem c8_vlq_round_trip_witness :
    vlqDecode (writeVariableLength 0) 0 = 0 ∧
    vlqDecode (writeVariableLength 127) 0 = 127 ∧
    vlqDecode (writeVariableLength 128) 0 = 128 ∧
    vlqDecode (writeVariableLength 16383) 0 = 16383 ∧
    vlqDecode (writeVariableLength 16384) 0 = 16384 ∧
    vlqDecode (writeVariableLength 2097151) 0 = 2097151 :=
  ⟨(c8_vlq_round_trip 0 (by norm_num)).2,
   (c8_vlq_round_trip 127 (by norm_num)).2,
   (c8_vlq_round_trip 128 (by norm_num)).2,
   (c8_vlq_round_trip 16383 (by norm_num)).2,
   (c8_vlq_round_trip 16384 (by norm_num)).2,
   (c8_vlq_round_trip 2097151 (by norm_num)).2⟩

/-!
## Binary note-file writer: `generateMultiTrackMidi` (`midiGenerator.ts`)

The writer builds `allChunks : number[]` (an MThd header, a tempo track
chunk, then one data track chunk per exported part) and returns
`new Uint8Array(allChunks)`.  The `Uint8Array` constructor reduces every
entry modulo 256, embedded below as a final `List.map (· % 256)`.

JavaScript fidelity notes:
* `x >> k & 0xFF` on a non-negative 32-bit value is `x / 2^k % 256`; chunk
  lengths and track counts here stay far below `2^31`.
* `Math.round(x)` for positive `x` is `⌊x + 1/2⌋` (half-up).
* `track.velocity || 100` substitutes 100 both for an absent velocity and
  for an explicit 0 (JavaScript falsiness).
* `Array.prototype.sort` is stable with the comparator
  `(a, b) => a.tick - b.tick`; a stable merge sort with `a.tick ≤ b.tick`
  produces the identical permutation.
-/

/-- `writeStringToBytes(str)`: the character codes of the string. -/
def writeStringToBytes (s : String) : List ℕ :=
  s.data.map Char.toNat

/-- A tick-stamped MIDI message, as pushed into `timedEvents`. -/
structure TimedEvent where
  tick : ℕ
  message : List ℕ
deriving DecidableEq, Repr

/-- `midiGenerator.ts` `MidiTrack`: notes plus channel and an optional
whole-track velocity. -/
structure MidiTrack where
  notes : List MelodyNote
  channel : ℕ
  velocity : Option ℕ
deriving DecidableEq, Repr

/-- `midiGenerator.ts` `MidiOptions`. -/
structure MidiOptions where
  bpm : ℚ
  tracks : List MidiTrack
deriving DecidableEq, Repr

/-- `track.velocity || 100`: JavaScript falsiness makes both `undefined`
and `0` fall back to 100. -/
def effVelocity (v : Option ℕ) : ℕ :=
  match v with
  | none => 100
  | some x => if x = 0 then 100 else x

/-- `Math.round` on a positive rational: half-up rounding. -/
def jsRound (x : ℚ) : ℕ :=
  (⌊x + 1 / 2⌋).toNat

/-- The note-on/note-off event pairs pushed for each note of a track:
note-on `0x90 + channel` at `startTick`, note-off `0x80 + channel` at
`startTick + durationTicks`. -/
def trackTimedEvents (track : MidiTrack) : List TimedEvent :=
  track.notes.flatMap fun note =>
    [⟨note.startTick, [144 + track.channel, note.midiNote, effVelocity track.velocity]⟩,
     ⟨note.startTick + note.durationTicks, [128 + track.channel, note.midiNote, 0]⟩]

/-- `timedEvents.sort((a, b) => a.tick - b.tick)`: stable ascending sort
by absolute tick. -/
def sortEventsByTick (events : List TimedEvent) : List TimedEvent :=
  events.mergeSort fun a b => a.tick ≤ b.tick

/-- The `timedEvents.forEach` loop: each event is emitted as the
variable-length delta since `lastTick` followed by its message bytes,
parameterized by the variable-length writer so the source encoder and the
spec-side encoder can be compared. -/
def deltaEncodeWith (vlq : ℕ → List ℕ) : ℕ → List TimedEvent → List ℕ
  | _, [] => []
  | lastTick, e :: rest =>
    vlq (e.tick - lastTick) ++ e.message ++ deltaEncodeWith vlq e.tick rest

/-- A data track's event bytes: the delta-encoded sorted note events
followed by the end-of-track meta event (`0x01 FF 2F 00`). -/
def dataTrackEvents (track : MidiTrack) : List ℕ :=
  deltaEncodeWith writeVariableLength 0 (sortEventsByTick (trackTimedEvents track))
    ++ [1, 255, 47, 0]

/-- `createTrackChunk(trackEvents)`: `MTrk`, the 4-byte big-endian event
byte count, then the events. -/
def createTrackChunk (trackEvents : List ℕ) : List ℕ :=
  let trackLength := trackEvents.length
  writeStringToBytes "MTrk" ++
    [trackLength / 2 ^ 24 % 256, trackLength / 2 ^ 16 % 256,
     trackLength / 2 ^ 8 % 256, trackLength % 256] ++
    trackEvents

/-- The tempo track's event bytes: delta 0, Set Tempo meta event `FF 51 03`
carrying `Math.round(60000000 / bpm)` in three bytes, then end of track. -/
def tempoTrackEvents (bpm : ℚ) : List ℕ :=
  let microsecondsPerQuarter := jsRound (60000000 / bpm)
  [0, 255, 81, 3,
   microsecondsPerQuarter / 2 ^ 16 % 256,
   microsecondsPerQuarter / 2 ^ 8 % 256,
   microsecondsPerQuarter % 256,
   1, 255, 47, 0]

/-- `generateMultiTrackMidi(options)`: MThd header (length 6, format 1,
`tracks.length + 1` tracks, 256 ticks per quarter note), tempo track chunk,
then one data chunk per track; the final `Uint8Array` conversion reduces
every entry modulo 256. -/
def generateMultiTrackMidi (options : MidiOptions) : List ℕ :=
  let numTracks := options.tracks.length + 1
  let mthd := writeStringToBytes "MThd" ++
    [0, 0, 0, 6, 0, 1,
     numTracks / 2 ^ 8 % 256, numTracks % 256,
     TICKS_PER_QUARTER_NOTE / 2 ^ 8 % 256, TICKS_PER_QUARTER_NOTE % 256]
  let allChunks := mthd ++ createTrackChunk (tempoTrackEvents options.bpm) ++
    (options.tracks.map fun t => createTrackChunk (dataTrackEvents t)).flatten
  allChunks.map (· % 256)

/-!
Spec-side descriptions for claim C2, written from the claim's words: a
header with declared length 6, format 1, a big-endian track count and 256
ticks per quarter note; `MTrk` chunks declaring a 4-byte big-endian byte
count of their payload; a tempo meta event carrying `round(60000000/bpm)`;
and per-part payloads of delta-encoded, tick-sorted note-on/note-off pairs
ending in the end-of-track meta event `FF 2F 00`.
-/

/-- Canonical 2-byte big-endian encoding. -/
def be16 (n : ℕ) : List ℕ := [n / 2 ^ 8 % 256, n % 256]

/-- Canonical 3-byte big-endian encoding. -/
def be24 (n : ℕ) : List ℕ := [n / 2 ^ 16 % 256, n / 2 ^ 8 % 256, n % 256]

/-- Canonical 4-byte big-endian encoding. -/
def be32 (n : ℕ) : List ℕ :=
  [n / 2 ^ 24 % 256, n / 2 ^ 16 % 256, n / 2 ^ 8 % 256, n % 256]

/-- Claim C2's header chunk: `MThd`, declared length 6, format 1 (multi
track), big-endian track count, 256 ticks per quarter note. -/
def specMThd (trackCount : ℕ) : List ℕ :=
  [77, 84, 104, 100] ++ [0, 0, 0, 6] ++ [0, 1] ++ be16 trackCount ++ be16 256

/-- Claim C2's track chunk: `MTrk`, a 4-byte big-endian length equal to the
byte count of the event payload, then the payload. -/
def specMTrk (payload : List ℕ) : List ℕ :=
  [77, 84, 114, 107] ++ be32 payload.length ++ payload

/-- Claim C8's / C2's encoder description: 7-bit groups, most-significant
group first, continuation bit on all but the final group. -/
def specVlq (n : ℕ) : List ℕ :=
  addContinuationBits (vlqGroups n)

/-- Claim C2's tempo/meta track payload: a tempo meta event carrying
`round(60000000/bpm)` microseconds per quarter note, then end of track. -/
def specTempoPayload (bpm : ℚ) : List ℕ :=
  [0, 255, 81, 3] ++ be24 (jsRound (60000000 / bpm)) ++ [1, 255, 47, 0]

/-- Claim C2's data track payload: note-on/note-off pairs sorted ascending
by absolute tick, re-expressed as variable-length delta-times, terminated
by the end-of-track meta event. -/
def specTrackPayload (track : MidiTrack) : List ℕ :=
  deltaEncodeWith specVlq 0 (sortEventsByTick (trackTimedEvents track))
    ++ [1, 255, 47, 0]

theorem writeStringToBytes_MTrk : writeStringToBytes "MTrk" = [77, 84, 114, 107] := by
  rfl

theorem writeStringToBytes_MThd : writeStringToBytes "MThd" = [77, 84, 104, 100] := by
  rfl

theorem deltaEncodeWith_source_eq_spec (evs : List TimedEvent) : ∀ lastTick : ℕ,
    deltaEncodeWith writeVariableLength lastTick evs =
      deltaEncodeWith specVlq lastTick evs := by
  induction evs with
  | nil => intro lastTick; rfl
  | cons e rest ih =>
    intro lastTick
    simp only [deltaEncodeWith]
    rw [writeVariableLength_eq_spec, ih]
    rfl

theorem dataTrackEvents_eq_spec (t : MidiTrack) :
    dataTrackEvents t = specTrackPayload t := by
  unfold dataTrackEvents specTrackPayload
  rw [deltaEncodeWith_source_eq_spec]

theorem createTrackChunk_eq_specMTrk (l : List ℕ) :
    createTrackChunk l = specMTrk l := by
  unfold createTrackChunk specMTrk be32
  rw [writeStringToBytes_MTrk]

theorem tempoTrackEvents_eq_spec (bpm : ℚ) :
    tempoTrackEvents bpm = specTempoPayload bpm := by
  unfold tempoTrackEvents specTempoPayload be24
  simp

theorem mthd_eq_specMThd (n : ℕ) :
    writeStringToBytes "MThd" ++
      [0, 0, 0, 6, 0, 1, n / 2 ^ 8 % 256, n % 256,
       TICKS_PER_QUARTER_NOTE / 2 ^ 8 % 256, TICKS_PER_QUARTER_NOTE % 256] =
    specMThd n := by
  rw [writeStringToBytes_MThd]
  unfold specMThd be16 TICKS_PER_QUARTER_NOTE
  norm_num

theorem writeVariableLength_byte_lt (n : ℕ) : ∀ b ∈ writeVariableLength n, b < 256 := by
  rw [writeVariableLength_eq_contGroups]
  intro b hb
  rcases List.mem_append.mp hb with h | h
  · unfold contGroups at h
    split at h
    · simp at h
    · rcases List.mem_map.mp h with ⟨g, hg, rfl⟩
      have := vlqGroups_lt _ g hg
      omega
  · simp at h
    omega

theorem deltaEncodeWith_byte_lt (evs : List TimedEvent) : ∀ lastTick : ℕ,
    (∀ e ∈ evs, ∀ b ∈ e.message, b < 256) →
    ∀ b ∈ deltaEncodeWith writeVariableLength lastTick evs, b < 256 := by
  induction evs with
  | nil =>
    intro lastTick _ b hb
    simp [deltaEncodeWith] at hb
  | cons e rest ih =>
    intro lastTick hmsg b hb
    simp only [deltaEncodeWith, List.append_assoc, List.mem_append] at hb
    rcases hb with hb | hb | hb
    · exact writeVariableLength_byte_lt _ _ hb
    · exact hmsg e (by simp) b hb
    · exact ih e.tick (fun e2 he2 => hmsg e2 (by simp [he2])) b hb

theorem trackTimedEvents_message_lt (t : MidiTrack) (hch : t.channel < 16)
    (hvel : effVelocity t.velocity < 128)
    (hpitch : ∀ n ∈ t.notes, n.midiNote < 128) :
    ∀ e ∈ trackTimedEvents t, ∀ b ∈ e.message, b < 256 := by
  intro e he b hb
  unfold trackTimedEvents at he
  rcases List.mem_flatMap.mp he with ⟨note, hn, hmem⟩
  have hp := hpitch note hn
  simp only [List.mem_cons, List.not_mem_nil, or_false] at hmem
  rcases hmem with rfl | rfl <;> simp at hb <;> omega

theorem dataTrackEvents_byte_lt (t : MidiTrack) (hch : t.channel < 16)
    (hvel : effVelocity t.velocity < 128)
    (hpitch : ∀ n ∈ t.notes, n.midiNote < 128) :
    ∀ b ∈ dataTrackEvents t, b < 256 := by
  unfold dataTrackEvents
  intro b hb
  rcases List.mem_append.mp hb with hb | hb
  · refine deltaEncodeWith_byte_lt _ 0 ?_ b hb
    intro e he
    have he2 : e ∈ trackTimedEvents t := by
      unfold sortEventsByTick at he
      exact List.mem_mergeSort.mp he
    exact trackTimedEvents_message_lt t hch hvel hpitch e he2
  · simp at hb
    omega

theorem tempoTrackEvents_byte_lt (bpm : ℚ) : ∀ b ∈ tempoTrackEvents bpm, b < 256 := by
  unfold tempoTrackEvents
  intro b hb
  simp at hb
  omega

theorem createTrackChunk_byte_lt {l : List ℕ} (hl : ∀ b ∈ l, b < 256) :
    ∀ b ∈ createTrackChunk l, b < 256 := by
  unfold createTrackChunk
  rw [writeStringToBytes_MTrk]
  intro b hb
  simp only [List.append_assoc, List.mem_append, List.mem_cons,
    List.not_mem_nil, or_false] at hb
  rcases hb with hb | hb
  · omega
  · rcases hb with hb | hb
    · omega
    · exact hl b hb

theorem list_map_mod_id (l : List ℕ) (h : ∀ b ∈ l, b < 256) :
    l.map (· % 256) = l := by
  induction l with
  | nil => rfl
  | cons a t ih =>
    simp only [List.map_cons]
    rw [Nat.mod_eq_of_lt (h a (by simp)), ih (fun b hb => h b (by simp [hb]))]

/-- C2 (amended).  For parts with data-model-conformant events (channel
< 16, pitch < 128, effective velocity < 128, event ticks < 2^28), a track
count fitting the 16-bit header field, and a tempo value fitting its 3-byte
field, `generateMultiTrackMidi` produces exactly: the `MThd` header with
declared length 6, format 1, big-endian track count N+1 and 256 ticks per
quarter note; a first tempo/meta track whose tempo meta event carries
`round(60000000/bpm)`; then one `MTrk` chunk per part with tick-sorted
note-on/note-off pairs re-expressed as variable-length delta-times, ending
in the end-of-track meta event `FF 2F 00` and declaring a 4-byte big-endian
payload byte count.  The 16-bit and 24-bit header fields genuinely carry
their values under these hypotheses. -/
theorem c2_midi_writer_format (options : MidiOptions)
    (hbpm : 0 < options.bpm)
    (hcount : options.tracks.length + 1 < 2 ^ 16)
    (htempo : jsRound (60000000 / options.bpm) < 2 ^ 24)
    (htracks : ∀ t ∈ options.tracks, t.channel < 16 ∧ effVelocity t.velocity < 128 ∧
        ∀ n ∈ t.notes, n.midiNote < 128 ∧ n.startTick + n.durationTicks < 2 ^ 28) :
    generateMultiTrackMidi options =
      specMThd (options.tracks.length + 1) ++
        specMTrk (specTempoPayload options.bpm) ++
        (options.tracks.map fun t => specMTrk (specTrackPayload t)).flatten ∧
    ((options.tracks.length + 1) / 2 ^ 8 % 256 * 2 ^ 8 + (options.tracks.length + 1) % 256
        = options.tracks.length + 1) ∧
    (jsRound (60000000 / options.bpm) / 2 ^ 16 % 256 * 2 ^ 16
        + jsRound (60000000 / options.bpm) / 2 ^ 8 % 256 * 2 ^ 8
        + jsRound (60000000 / options.bpm) % 256
        = jsRound (60000000 / options.bpm)) ∧
    ∀ t ∈ options.tracks,
      ([255, 47, 0] : List ℕ) <:+ specTrackPayload t ∧
      List.Sorted (fun a b : TimedEvent => a.tick ≤ b.tick)
        (sortEventsByTick (trackTimedEvents t)) := by
  refine ⟨?_, by omega, by omega, ?_⟩
  · unfold generateMultiTrackMidi
    have hbytes : ∀ b ∈ (writeStringToBytes "MThd" ++
        [0, 0, 0, 6, 0, 1,
         (options.tracks.length + 1) / 2 ^ 8 % 256, (options.tracks.length + 1) % 256,
         TICKS_PER_QUARTER_NOTE / 2 ^ 8 % 256, TICKS_PER_QUARTER_NOTE % 256] ++
        createTrackChunk (tempoTrackEvents options.bpm) ++
        (options.tracks.map fun t => createTrackChunk (dataTrackEvents t)).flatten),
        b < 256 := by
      intro b hb
      rw [writeStringToBytes_MThd] at hb
      simp only [List.append_assoc, List.mem_append] at hb
      rcases hb with hb | hb | hb | hb
      · simp at hb
        omega
      · simp only [List.mem_cons, List.not_mem_nil, or_false,
          TICKS_PER_QUARTER_NOTE] at hb
        omega
      · exact createTrackChunk_byte_lt (tempoTrackEvents_byte_lt options.bpm) b hb
      · rcases List.mem_flatten.mp hb with ⟨chunk, hc, hbc⟩
        rcases List.mem_map.mp hc with ⟨t, ht, rfl⟩
        obtain ⟨hch, hvel, hnotes⟩ := htracks t ht
        exact createTrackChunk_byte_lt
          (dataTrackEvents_byte_lt t hch hvel (fun n hn => (hnotes n hn).1)) b hbc
    rw [list_map_mod_id _ hbytes]
    rw [createTrackChunk_eq_specMTrk, tempoTrackEvents_eq_spec]
    have hfun : (fun t => createTrackChunk (dataTrackEvents t)) =
        fun t => specMTrk (specTrackPayload t) := by
      funext t
      rw [createTrackChunk_eq_specMTrk, dataTrackEvents_eq_spec]
    rw [hfun]
    rw [show writeStringToBytes "MThd" ++
        [0, 0, 0, 6, 0, 1,
         (options.tracks.length + 1) / 2 ^ 8 % 256, (options.tracks.length + 1) % 256,
         TICKS_PER_QUARTER_NOTE / 2 ^ 8 % 256, TICKS_PER_QUARTER_NOTE % 256]
        = specMThd (options.tracks.length + 1) from mthd_eq_specMThd _]
  · intro t ht
    refine ⟨⟨deltaEncodeWith specVlq 0 (sortEventsByTick (trackTimedEvents t)) ++ [1],
        by simp [specTrackPayload]⟩, ?_⟩
    have hs := @List.sorted_mergeSort TimedEvent
      (fun a b : TimedEvent => decide (a.tick ≤ b.tick))
      (by intro a b c hab hbc; simp at *; omega)
      (by intro a b; simp; omega)
      (trackTimedEvents t)
    unfold sortEventsByTick
    refine List.Pairwise.imp ?_ hs
    intro a b hab
    simpa using hab

/-- C2 counterexample.  At bpm = 1 (a positive bpm), `round(60000000/bpm)
= 60000000 ≥ 2^24` does not fit the 3-byte tempo field: the bytes the
writer emits at the tempo meta event's data positions (offsets 26–28 of
the file) are `93 87 00`, which carry 9 668 352, not 60 000 000 — so the
claim's "for every positive bpm the tempo meta event carries
round(60000000/bpm)" fails as stated. -/
theorem c2_midi_writer_format_counterexample :
    jsRound (60000000 / (1 : ℚ)) = 60000000 ∧
    ((generateMultiTrackMidi ⟨1, []⟩).drop 26).take 3 = [147, 135, 0] ∧
    147 * 2 ^ 16 + 135 * 2 ^ 8 + 0 ≠ 60000000 := by
  have hround : jsRound (60000000 / (1 : ℚ)) = 60000000 := by
    unfold jsRound
    norm_num
    simp
  refine ⟨hround, ?_, by norm_num⟩
  unfold generateMultiTrackMidi createTrackChunk tempoTrackEvents
  rw [hround]
  simp [writeStringToBytes_MThd, writeStringToBytes_MTrk, TICKS_PER_QUARTER_NOTE]

/-- Witness for C2 at bpm = 120 with one single-note part: all hypotheses
hold and the writer's output has the claimed chunk structure (with the
tempo meta event carrying exactly 500000). -/
theorem c2_midi_writer_format_witness :
    jsRound (60000000 / (120 : ℚ)) = 500000 ∧
    generateMultiTrackMidi ⟨120, [⟨[⟨60, 0, 256, 1⟩], 0, some 100⟩]⟩ =
      specMThd 2 ++ specMTrk (specTempoPayload 120) ++
        (([⟨[⟨60, 0, 256, 1⟩], 0, some 100⟩] :
          List MidiTrack).map fun t => specMTrk (specTrackPayload t)).flatten := by
  have hround : jsRound (60000000 / (120 : ℚ)) = 500000 := by
    unfold jsRound
    norm_num
    simp
  refine ⟨hround, ?_⟩
  exact (c2_midi_writer_format ⟨120, [⟨[⟨60, 0, 256, 1⟩], 0, some 100⟩]⟩
    (by norm_num)
    (by norm_num)
    (by rw [show ((⟨120, [⟨[⟨60, 0, 256, 1⟩], 0, some 100⟩]⟩ : MidiOptions).bpm) = 120 from rfl,
          hround]; norm_num)
    (by intro t htmem
        simp only [List.mem_cons, List.not_mem_nil, or_false] at htmem
        subst htmem
        refine ⟨by norm_num, by norm_num [effVelocity], ?_⟩
        intro n hn
        simp only [List.mem_cons, List.not_mem_nil, or_false] at hn
        subst hn
        norm_num)).1

/-!
## Voice synthesizer: `scheduleSynthPlayback` (`audioPlayback.ts`)

The Web-Audio side effects are embedded as the data they schedule: the
ordered list of gain-parameter automation events and the oscillators'
start/stop times.  The oscillator frequency
`440 * 2^((midiNote − 69) / 12)` is real-valued pitch math used by no
claim and is not carried in the schedule record; the filter and oscillator
configuration parameters are carried in `SynthParams` as declared.

Note the source computes `durationSec = ticksToSeconds(note.durationTicks,
120)` with a hard-coded 120, not the `bpm` parameter that
`scheduleNotePlayback` receives (its comment reads "BPM doesn't affect
duration here, just relative ticks").
-/

/-- `types.ts` synth oscillator parameters (`type`, `detune`). -/
structure OscillatorParams where
  waveform : String
  detune : ℚ
deriving DecidableEq, Repr

/-- `types.ts` synth ADSR envelope (seconds, sustain a level in [0,1]). -/
structure EnvelopeParams where
  attack : ℚ
  decay : ℚ
  sustain : ℚ
  release : ℚ
deriving DecidableEq, Repr

/-- `types.ts` synth filter parameters (`type`, `frequency`, `q`). -/
structure FilterParams where
  kind : String
  frequency : ℚ
  q : ℚ
deriving DecidableEq, Repr

/-- `types.ts` `SynthInstrument.params`. -/
structure SynthParams where
  oscillator1 : OscillatorParams
  oscillator2 : OscillatorParams
  envelope : EnvelopeParams
  filter : FilterParams
deriving DecidableEq, Repr

/-- `types.ts` instrument: a synth with parameters or a sampler with an
optional sample buffer. -/
inductive Instrument
  | synth (params : SynthParams)
  | sampler (hasSampleBuffer : Bool)
deriving DecidableEq, Repr

/-- One scheduled gain-parameter automation event (`setValueAtTime`,
`linearRampToValueAtTime`, `exponentialRampToValueAtTime`). -/
inductive GainEvent
  | setValue (value time : ℚ)
  | linearRamp (value time : ℚ)
  | expRamp (value time : ℚ)
deriving DecidableEq, Repr

/-- Everything `scheduleSynthPlayback` schedules for one note. -/
structure SynthSchedule where
  durationSec : ℚ
  gainEvents : List GainEvent
  osc1StartTime : ℚ
  osc2StartTime : ℚ
  osc1StopTime : ℚ
  osc2StopTime : ℚ
deriving DecidableEq, Repr

/-- `scheduleSynthPlayback(context, destination, instrument, note, when)`:
`durationSec = ticksToSeconds(note.durationTicks, 120)`; the gain ramps
0 → velocity over `attack`, exponentially to
`max(0.0001, sustain*velocity)` over `decay`, is set to
`sustain*velocity` at `max(when, when + durationSec − release)` and ramps
linearly to 0 at `when + durationSec`; both oscillators start at `when`
and stop at `when + durationSec`. -/
def scheduleSynthPlayback (params : SynthParams) (note : MelodyNote)
    (when : ℚ) : SynthSchedule :=
  let durationSec := ticksToSeconds (note.durationTicks : ℚ) 120
  let releaseStart := when + durationSec - params.envelope.release
  { durationSec := durationSec
    gainEvents :=
      [ GainEvent.setValue 0 when
      , GainEvent.linearRamp note.velocity (when + params.envelope.attack)
      , GainEvent.expRamp (max (1 / 10000) (params.envelope.sustain * note.velocity))
          (when + params.envelope.attack + params.envelope.decay)
      , GainEvent.setValue (params.envelope.sustain * note.velocity)
          (max when releaseStart)
      , GainEvent.linearRamp 0 (when + durationSec) ]
    osc1StartTime := when
    osc2StartTime := when
    osc1StopTime := when + durationSec
    osc2StopTime := when + durationSec }

/-- A playback handle registered in the active-source map: a synth voice's
schedule or a sampler buffer source started at a time. -/
inductive PlaybackHandle
  | synth (schedule : SynthSchedule)
  | sampler (startTime : ℚ)
deriving DecidableEq, Repr

/-- `scheduleSamplerPlayback`: no emission without a loaded buffer,
otherwise unmodified buffer playback from `when`. -/
def scheduleSamplerPlayback (hasSampleBuffer : Bool) (when : ℚ) :
    Option PlaybackHandle :=
  if hasSampleBuffer then some (PlaybackHandle.sampler when) else none

/-- `scheduleNotePlayback(context, destination, bpm, track, note, when)`:
dispatch on the track's instrument; `none` when the track has no
instrument.  The `bpm` parameter is accepted but never forwarded — the
synth path hard-codes 120. -/
def scheduleNotePlayback (bpm : ℚ) (instrument : Option Instrument)
    (note : MelodyNote) (when : ℚ) : Option PlaybackHandle :=
  match instrument with
  | none => none
  | some (Instrument.synth params) =>
      some (PlaybackHandle.synth (scheduleSynthPlayback params note when))
  | some (Instrument.sampler hasBuf) => scheduleSamplerPlayback hasBuf when

/-- C3 counterexample.  At project bpm 240 a scheduled synth note of 256
ticks stops its oscillators at `when + ticksToSeconds(256, 120)` =
`when + 1/2`, not at `when + ticksToSeconds(256, 240)` = `when + 1/4` as
the claim's "uses the project's actual bpm" requires. -/
theorem c3_synth_duration_counterexample :
    scheduleNotePlayback 240
        (some (Instrument.synth
          ⟨⟨"sawtooth", 0⟩, ⟨"square", -10⟩, ⟨1/100, 3/10, 7/10, 1/2⟩,
           ⟨"lowpass", 5000, 1⟩⟩))
        ⟨60, 0, 256, 1⟩ 0 =
      some (PlaybackHandle.synth (scheduleSynthPlayback
          ⟨⟨"sawtooth", 0⟩, ⟨"square", -10⟩, ⟨1/100, 3/10, 7/10, 1/2⟩,
           ⟨"lowpass", 5000, 1⟩⟩ ⟨60, 0, 256, 1⟩ 0)) ∧
    (scheduleSynthPlayback
        ⟨⟨"sawtooth", 0⟩, ⟨"square", -10⟩, ⟨1/100, 3/10, 7/10, 1/2⟩,
         ⟨"lowpass", 5000, 1⟩⟩ ⟨60, 0, 256, 1⟩ 0).osc1StopTime =
      0 + ticksToSeconds 256 120 ∧
    ticksToSeconds 256 120 = 1 / 2 ∧
    ticksToSeconds 256 240 = 1 / 4 ∧
    (scheduleSynthPlayback
        ⟨⟨"sawtooth", 0⟩, ⟨"square", -10⟩, ⟨1/100, 3/10, 7/10, 1/2⟩,
         ⟨"lowpass", 5000, 1⟩⟩ ⟨60, 0, 256, 1⟩ 0).osc1StopTime ≠
      0 + ticksToSeconds 256 240 := by
  refine ⟨rfl, ?_, ?_, ?_, ?_⟩ <;>
    norm_num [scheduleSynthPlayback, ticksToSeconds, TICKS_PER_QUARTER_NOTE]

/-- C3 (amended).  For every bpm passed to `scheduleNotePlayback`, a synth
note's sounding duration is `ticksToSeconds(note.durationTicks, 120)` —
the shared Tempo Clock conversion at a fixed 120 bpm, independent of the
project's bpm — and both oscillators are scheduled to stop at
`startTime + that duration`. -/
theorem c3_synth_duration_fixed_120 (bpm : ℚ) (params : SynthParams)
    (note : MelodyNote) (when : ℚ) :
    scheduleNotePlayback bpm (some (Instrument.synth params)) note when =
      some (PlaybackHandle.synth (scheduleSynthPlayback params note when)) ∧
    (scheduleSynthPlayback params note when).durationSec =
      ticksToSeconds (note.durationTicks : ℚ) 120 ∧
    (scheduleSynthPlayback params note when).osc1StopTime =
      when + (scheduleSynthPlayback params note when).durationSec ∧
    (scheduleSynthPlayback params note when).osc2StopTime =
      when + (scheduleSynthPlayback params note when).durationSec :=
  ⟨rfl, rfl, rfl, rfl⟩

/-- C4 counterexample.  With attack = 1, decay = 1, release = 1/2 and a
512-tick note (sounding duration d = 1 second), d < attack+decay+release
= 5/2 yet the release-start `setValueAtTime` is scheduled at
`max(0, 0 + 1 − 1/2) = 1/2 ≠ 0`: the claim's "when
d < attack+decay+release, releaseStart clamps to t" fails as stated
(clamping happens only when d ≤ release). -/
theorem c4_envelope_counterexample :
    (scheduleSynthPlayback
        ⟨⟨"sawtooth", 0⟩, ⟨"square", -10⟩, ⟨1, 1, 1/2, 1/2⟩,
         ⟨"lowpass", 5000, 1⟩⟩ ⟨60, 0, 512, 1⟩ 0).durationSec = 1 ∧
    (1 : ℚ) < 1 + 1 + 1/2 ∧
    (scheduleSynthPlayback
        ⟨⟨"sawtooth", 0⟩, ⟨"square", -10⟩, ⟨1, 1, 1/2, 1/2⟩,
         ⟨"lowpass", 5000, 1⟩⟩ ⟨60, 0, 512, 1⟩ 0).gainEvents[3]? =
      some (GainEvent.setValue (1/2) (1/2)) ∧
    ((1 : ℚ)/2) ≠ 0 := by
  have hd : ticksToSeconds ((512 : ℕ) : ℚ) 120 = 1 := by
    norm_num [ticksToSeconds, TICKS_PER_QUARTER_NOTE]
  refine ⟨?_, by norm_num, ?_, by norm_num⟩
  · simpa [scheduleSynthPlayback] using hd
  · simp only [scheduleSynthPlayback, hd]
    norm_num

/-- C4 (amended).  For every scheduled synth note the gain automation is
exactly: set 0 at t; linear ramp to velocity at t + attack; exponential
ramp toward `max(0.0001, sustain*velocity)` at t + attack + decay; set the
sustain level at `releaseStart = max(t, t + d − release)`; linear ramp to 0
at t + d (where d is the schedule's sounding duration).  `releaseStart`
clamps to t exactly when d ≤ release, and the envelope is never inverted:
releaseStart ≤ t + d whenever release ≥ 0. -/
theorem c4_envelope_shape (params : SynthParams) (note : MelodyNote) (when : ℚ)
    (hrel : 0 ≤ params.envelope.release) :
    (scheduleSynthPlayback params note when).gainEvents =
      [ GainEvent.setValue 0 when
      , GainEvent.linearRamp note.velocity (when + params.envelope.attack)
      , GainEvent.expRamp (max (1 / 10000) (params.envelope.sustain * note.velocity))
          (when + params.envelope.attack + params.envelope.decay)
      , GainEvent.setValue (params.envelope.sustain * note.velocity)
          (max when (when + (scheduleSynthPlayback params note when).durationSec
            - params.envelope.release))
      , GainEvent.linearRamp 0
          (when + (scheduleSynthPlayback params note when).durationSec) ] ∧
    (max when (when + (scheduleSynthPlayback params note when).durationSec
        - params.envelope.release) = when ↔
      (scheduleSynthPlayback params note when).durationSec ≤ params.envelope.release) ∧
    max when (when + (scheduleSynthPlayback params note when).durationSec
        - params.envelope.release) ≤
      when + (scheduleSynthPlayback params note when).durationSec := by
  have hd : 0 ≤ (scheduleSynthPlayback params note when).durationSec := by
    simp only [scheduleSynthPlayback]
    exact ticksToSeconds_nonneg (by positivity) (by norm_num)
  refine ⟨rfl, ?_, ?_⟩
  · constructor
    · intro hmax
      by_contra hlt
      push_neg at hlt
      have : when < when + (scheduleSynthPlayback params note when).durationSec
          - params.envelope.release := by linarith
      have := max_eq_right (le_of_lt this)
      rw [this] at hmax
      linarith
    · intro hle
      exact max_eq_left (by linarith)
  · apply max_le
    · linarith
    · linarith

/-- Witness for C4 at attack = 1/100, decay = 3/10, sustain = 1/2,
release = 1/2, a 512-tick note at velocity 1 starting at 0. -/
theorem c4_envelope_shape_witness :
    (0 : ℚ) ≤ 1/2 ∧
    (scheduleSynthPlayback
        ⟨⟨"sawtooth", 0⟩, ⟨"square", -10⟩, ⟨1/100, 3/10, 1/2, 1/2⟩,
         ⟨"lowpass", 5000, 1⟩⟩ ⟨60, 0, 512, 1⟩ 0).gainEvents =
      [ GainEvent.setValue 0 0
      , GainEvent.linearRamp 1 (0 + 1/100)
      , GainEvent.expRamp (max (1 / 10000) (1/2 * 1)) (0 + 1/100 + 3/10)
      , GainEvent.setValue (1/2 * 1)
          (max 0 (0 + (scheduleSynthPlayback
            ⟨⟨"sawtooth", 0⟩, ⟨"square", -10⟩, ⟨1/100, 3/10, 1/2, 1/2⟩,
             ⟨"lowpass", 5000, 1⟩⟩ ⟨60, 0, 512, 1⟩ 0).durationSec - 1/2))
      , GainEvent.linearRamp 0
          (0 + (scheduleSynthPlayback
            ⟨⟨"sawtooth", 0⟩, ⟨"square", -10⟩, ⟨1/100, 3/10, 1/2, 1/2⟩,
             ⟨"lowpass", 5000, 1⟩⟩ ⟨60, 0, 512, 1⟩ 0).durationSec) ] :=
  ⟨by norm_num,
   (c4_envelope_shape
      ⟨⟨"sawtooth", 0⟩, ⟨"square", -10⟩, ⟨1/100, 3/10, 1/2, 1/2⟩,
       ⟨"lowpass", 5000, 1⟩⟩ ⟨60, 0, 512, 1⟩ 0 (by norm_num)).1⟩

/-!
## Track data model and mixing graph (`types.ts`, `useAudioGraph.ts`,
`DAW.tsx`)
-/

/-- A clip's payload: a pitched (MIDI) clip's notes, or an audio clip's
optional decoded buffer. -/
inductive ClipPayload
  | midi (notes : List MelodyNote)
  | audio (hasBuffer : Bool)
deriving DecidableEq, Repr

/-- `types.ts` `DAWClip` (common fields plus the payload variant). -/
structure DAWClip where
  startTick : ℕ
  durationTicks : ℕ
  payload : ClipPayload
deriving DecidableEq, Repr

/-- `types.ts` track type discriminator. -/
inductive TrackType
  | midi
  | audio
deriving DecidableEq, Repr

/-- `types.ts` `DAWTrack`: mix state, instrument and clips. -/
structure DAWTrack where
  id : ℕ
  trackType : TrackType
  isMuted : Bool
  isSoloed : Bool
  volume : ℚ
  pan : ℚ
  instrument : Option Instrument
  clips : List DAWClip
deriving DecidableEq, Repr

/-- `useAudioGraph.ts`: `const anySolo = tracks.some((t) => t.isSoloed)`. -/
def anySolo (tracks : List DAWTrack) : Bool :=
  tracks.any (·.isSoloed)

/-- `useAudioGraph.ts`: `const audible = !t.isMuted && (!anySolo ||
t.isSoloed)`. -/
def audible (t : DAWTrack) (tracks : List DAWTrack) : Bool :=
  !t.isMuted && (!(anySolo tracks) || t.isSoloed)

/-- `useAudioGraph.ts`: `nodes.gain.gain.setValueAtTime(audible ?
t.volume : 0, ac.currentTime)`. -/
def trackGainValue (t : DAWTrack) (tracks : List DAWTrack) : ℚ :=
  if audible t tracks then t.volume else 0

/-- `useAudioGraph.ts`: `nodes.panner.pan.setValueAtTime(t.pan,
ac.currentTime)` — applied unconditionally (the surrounding `if` only
guards against a missing panner on very old browsers). -/
def trackPanValue (t : DAWTrack) : ℚ :=
  t.pan

/-- `DAW.tsx` `startPlayback`: `const soloedTracks =
project.tracks.filter(t => t.isSoloed)`. -/
def soloedTracks (tracks : List DAWTrack) : List DAWTrack :=
  tracks.filter (·.isSoloed)

/-- `DAW.tsx` `startPlayback`: `const audibleTracks = project.tracks.filter(
t => !t.isMuted && (soloedTracks.length === 0 || t.isSoloed))`. -/
def audibleTracks (tracks : List DAWTrack) : List DAWTrack :=
  tracks.filter fun t => !t.isMuted && ((soloedTracks tracks).length == 0 || t.isSoloed)

/-- C7.  Audibility equals `!muted && (no track soloed || soloed)`; it
satisfies the claim's truth table; when audible the gain is driven by the
track's volume and when inaudible it is forced to 0; pan is applied
independently and unconditionally; and the transport's `audibleTracks`
filter (`DAW.tsx`) selects exactly the tracks this audibility admits. -/
theorem c7_audibility (t : DAWTrack) (tracks : List DAWTrack) :
    (audible t tracks = (!t.isMuted && (!(tracks.any (·.isSoloed)) || t.isSoloed))) ∧
    (t.isMuted = false → t.isSoloed = false → anySolo tracks = false →
      audible t tracks = true) ∧
    (t.isMuted = true → audible t tracks = false) ∧
    (t.isMuted = false → t.isSoloed = false → anySolo tracks = true →
      audible t tracks = false) ∧
    (t.isMuted = false → t.isSoloed = true → audible t tracks = true) ∧
    (audible t tracks = true → trackGainValue t tracks = t.volume) ∧
    (audible t tracks = false → trackGainValue t tracks = 0) ∧
    trackPanValue t = t.pan ∧
    (t ∈ audibleTracks tracks ↔ t ∈ tracks ∧ audible t tracks = true) := by
  have hfilter : ((soloedTracks tracks).length == 0) = !(anySolo tracks) := by
    unfold soloedTracks anySolo
    rcases h : tracks.any (·.isSoloed) with _ | _
    · simp only [List.any_eq_false] at h
      have : tracks.filter (·.isSoloed) = [] := List.filter_eq_nil.mpr h
      simp [this]
    · simp only [List.any_eq_true] at h
      obtain ⟨x, hx, hsx⟩ := h
      have : x ∈ tracks.filter (·.isSoloed) := List.mem_filter.mpr ⟨hx, hsx⟩
      have hne : tracks.filter (·.isSoloed) ≠ [] := List.ne_nil_of_mem this
      simp [List.length_eq_zero, hne]
  refine ⟨rfl, ?_, ?_, ?_, ?_, ?_, ?_, rfl, ?_⟩
  · intro h1 h2 h3
    simp [audible, h1, h2, h3]
  · intro h1
    simp [audible, h1]
  · intro h1 h2 h3
    simp [audible, h1, h2, h3]
  · intro h1 h2
    simp [audible, h1, h2]
  · intro h1
    simp [trackGainValue, h1]
  · intro h1
    simp [trackGainValue, h1]
  · unfold audibleTracks
    rw [List.mem_filter, hfilter]
    unfold audible
    simp

/-- Witness for C7: a non-muted soloed track is audible (and its gain is
its volume) even when another track is also soloed. -/
theorem c7_audibility_witness :
    audible ⟨0, TrackType.midi, false, true, 1, 0, none, []⟩
        [⟨0, TrackType.midi, false, true, 1, 0, none, []⟩,
         ⟨1, TrackType.midi, false, true, 1, 0, none, []⟩] = true ∧
    trackGainValue ⟨0, TrackType.midi, false, true, 1, 0, none, []⟩
        [⟨0, TrackType.midi, false, true, 1, 0, none, []⟩,
         ⟨1, TrackType.midi, false, true, 1, 0, none, []⟩] = 1 := by
  have h := c7_audibility ⟨0, TrackType.midi, false, true, 1, 0, none, []⟩
    [⟨0, TrackType.midi, false, true, 1, 0, none, []⟩,
     ⟨1, TrackType.midi, false, true, 1, 0, none, []⟩]
  have haud := h.2.2.2.2.1 rfl rfl
  exact ⟨haud, h.2.2.2.2.2.1 haud⟩

/-!
## Transport scheduler: `startPlayback` / `animate` / `stopPlayback`
(`DAW.tsx`)
-/

/-- A MIDI note emission scheduled by `startPlayback`, with the fields the
loop computes it from. -/
structure ScheduledMidiNote where
  trackId : ℕ
  clipStartTick : ℕ
  note : MelodyNote
  time : ℚ
deriving DecidableEq, Repr

/-- The MIDI-note scheduling pass of `startPlayback(startFromTick)`: for
every audible track, every MIDI clip and every note, the emission time is
`playbackStartTime + ticksToSeconds(clip.startTick, bpm) +
ticksToSeconds(note.startTick, bpm) − ticksToSeconds(startFromTick, bpm)`
and the note is passed to `playNote` only when that time is ≥
`playbackStartTime`.  (Audio clips take the separate buffer-source path of
the source and emit no MIDI notes.) -/
def startPlaybackMidiSchedule (tracks : List DAWTrack) (bpm : ℚ)
    (playbackStartTime : ℚ) (startFromTick : ℕ) : List ScheduledMidiNote :=
  let scheduleStartOffset := ticksToSeconds (startFromTick : ℚ) bpm
  (audibleTracks tracks).flatMap fun track =>
    track.clips.flatMap fun clip =>
      let notePlayTimeOffset := ticksToSeconds (clip.startTick : ℚ) bpm
      match clip.payload with
      | ClipPayload.midi notes =>
          notes.filterMap fun note =>
            let noteStartInClipSec := ticksToSeconds (note.startTick : ℚ) bpm
            let notePlayTime :=
              playbackStartTime + notePlayTimeOffset + noteStartInClipSec
                - scheduleStartOffset
            if playbackStartTime ≤ notePlayTime then
              some ⟨track.id, clip.startTick, note, notePlayTime⟩
            else none
      | ClipPayload.audio _ => []

/-- Every emission in the schedule starts at or after the playback start
time. -/
theorem startPlaybackMidiSchedule_time_ge (tracks : List DAWTrack) (bpm : ℚ)
    (pst : ℚ) (startFromTick : ℕ) :
    ∀ sn ∈ startPlaybackMidiSchedule tracks bpm pst startFromTick,
      pst ≤ sn.time := by
  intro sn hsn
  unfold startPlaybackMidiSchedule at hsn
  rcases List.mem_flatMap.mp hsn with ⟨track, htr, hsn2⟩
  rcases List.mem_flatMap.mp hsn2 with ⟨clip, hcl, hsn3⟩
  rcases hcp : clip.payload with notes | hasBuf
  · rw [hcp] at hsn3
    rcases List.mem_filterMap.mp hsn3 with ⟨note, hnote, hcond⟩
    simp only [Option.ite_none_right_eq_some, Option.some.injEq] at hcond
    obtain ⟨hge, rfl⟩ := hcond
    exact hge
  · rw [hcp] at hsn3
    simp at hsn3

/-- C5.  For every audible track, every MIDI clip and every note,
`startPlayback(startFromTick)` schedules the note at
`absoluteTime = playbackStartTime + ticksToSeconds(clip.startTick +
note.startTick, bpm) − ticksToSeconds(startFromTick, bpm)`, and the note is
scheduled if and only if `absoluteTime ≥ playbackStartTime` (notes before
the playhead are skipped entirely). -/
theorem c5_start_playback_schedule (tracks : List DAWTrack) (bpm : ℚ)
    (pst : ℚ) (startFromTick : ℕ) (track : DAWTrack) (clip : DAWClip)
    (notes : List MelodyNote) (note : MelodyNote)
    (htr : track ∈ audibleTracks tracks)
    (hcl : clip ∈ track.clips)
    (hcp : clip.payload = ClipPayload.midi notes)
    (hnote : note ∈ notes) :
    (⟨track.id, clip.startTick, note,
        pst + ticksToSeconds ((clip.startTick : ℚ) + (note.startTick : ℚ)) bpm
          - ticksToSeconds (startFromTick : ℚ) bpm⟩ : ScheduledMidiNote)
      ∈ startPlaybackMidiSchedule tracks bpm pst startFromTick ↔
    pst ≤ pst + ticksToSeconds ((clip.startTick : ℚ) + (note.startTick : ℚ)) bpm
      - ticksToSeconds (startFromTick : ℚ) bpm := by
  have hlin : pst + ticksToSeconds ((clip.startTick : ℚ) + (note.startTick : ℚ)) bpm
      - ticksToSeconds (startFromTick : ℚ) bpm
      = pst + ticksToSeconds (clip.startTick : ℚ) bpm
          + ticksToSeconds (note.startTick : ℚ) bpm
          - ticksToSeconds (startFromTick : ℚ) bpm := by
    rw [ticksToSeconds_add]
    ring
  constructor
  · intro hmem
    exact startPlaybackMidiSchedule_time_ge tracks bpm pst startFromTick _ hmem
  · intro hge
    unfold startPlaybackMidiSchedule
    refine List.mem_flatMap.mpr ⟨track, htr, ?_⟩
    refine List.mem_flatMap.mpr ⟨clip, hcl, ?_⟩
    rw [hcp]
    refine List.mem_filterMap.mpr ⟨note, hnote, ?_⟩
    rw [hlin] at hge ⊢
    simp only [if_pos hge, Option.some.injEq]

/-- Witness for C5: one audible track with one MIDI clip at tick 256
holding one note at clip-local tick 0; starting playback from tick 0 at
clock time 10 schedules the note at time 10 + ticksToSeconds(256, 120)
= 10.5. -/
theorem c5_start_playback_schedule_witness :
    (⟨7, 256, ⟨60, 0, 256, 1⟩,
        10 + ticksToSeconds ((256 : ℕ) + ((0 : ℕ) : ℚ)) 120
          - ticksToSeconds ((0 : ℕ) : ℚ) 120⟩ : ScheduledMidiNote)
      ∈ startPlaybackMidiSchedule
          [⟨7, TrackType.midi, false, false, 1, 0, none,
            [⟨256, 1024, ClipPayload.midi [⟨60, 0, 256, 1⟩]⟩]⟩] 120 10 0 := by
  refine (c5_start_playback_schedule
      [⟨7, TrackType.midi, false, false, 1, 0, none,
        [⟨256, 1024, ClipPayload.midi [⟨60, 0, 256, 1⟩]⟩]⟩] 120 10 0
      ⟨7, TrackType.midi, false, false, 1, 0, none,
        [⟨256, 1024, ClipPayload.midi [⟨60, 0, 256, 1⟩]⟩]⟩
      ⟨256, 1024, ClipPayload.midi [⟨60, 0, 256, 1⟩]⟩
      [⟨60, 0, 256, 1⟩] ⟨60, 0, 256, 1⟩
      ?_ (by simp) rfl (by simp)).mpr ?_
  · unfold audibleTracks soloedTracks
    simp
  · have : ticksToSeconds ((256 : ℕ) + ((0 : ℕ) : ℚ)) 120 = 1/2 := by
      norm_num [ticksToSeconds, TICKS_PER_QUARTER_NOTE]
    rw [this]
    norm_num [ticksToSeconds]

/-- `types.ts` loop region. -/
structure LoopRegion where
  isEnabled : Bool
  startTick : ℚ
  endTick : ℚ
deriving DecidableEq, Repr

/-- JavaScript's `%` on the non-negative operands arising at the loop wrap
(`overshoot ≥ 0`, `loopDurationTicks > 0`), where it coincides with
mathematical mod: `a − b·⌊a/b⌋`. -/
def jsMod (a b : ℚ) : ℚ :=
  a - b * ⌊a / b⌋

/-- The wrapped position computed inside `animate` on a loop crossing:
`startTick + (overshoot % loopDurationTicks)` with
`overshoot = newPosition − endTick` and
`loopDurationTicks = endTick − startTick`. -/
def wrappedLoopPosition (loop : LoopRegion) (newPosition : ℚ) : ℚ :=
  loop.startTick + jsMod (newPosition - loop.endTick) (loop.endTick - loop.startTick)

/-- The observable outcome of one `animate` frame: either the playhead
advances (and another frame is requested), or playback is rescheduled by a
single `startPlayback(arg)` call and the frame returns. -/
inductive AnimateStep
  | advance (newPosition : ℚ)
  | reschedule (startPlaybackArg : ℚ)
deriving DecidableEq, Repr

/-- One frame of `animate` in `startPlayback` (`DAW.tsx`):
`newPosition = startFromTick + elapsedTicks`; when the loop is enabled and
`newPosition >= endTick` the source assigns
`newPosition = startTick + (overshoot % loopDurationTicks)` (the value
`wrappedLoopPosition` above) but then calls `startPlayback(startTick)` and
returns before `setPlayheadPosition` runs, so the wrapped value is
discarded; otherwise the playhead advances to `newPosition`. -/
def animateStep (loop : LoopRegion) (startFromTick elapsedTicks : ℚ) : AnimateStep :=
  let newPosition := startFromTick + elapsedTicks
  if loop.isEnabled ∧ loop.endTick ≤ newPosition then
    AnimateStep.reschedule loop.startTick
  else
    AnimateStep.advance newPosition

/-- C1 counterexample.  With loop {start = 0, end = 1024} enabled and the
playhead advancing to 1536 (overshoot 512), the wrapped position is
0 + (512 mod 1024) = 512, yet the frame calls `startPlayback(0)` — the
loop-region start, not the wrapped position — so the claim's "re-runs the
entire scheduling pass from that wrapped position" fails as stated. -/
theorem c1_loop_wrap_counterexample :
    animateStep ⟨true, 0, 1024⟩ 0 1536 = AnimateStep.reschedule 0 ∧
    wrappedLoopPosition ⟨true, 0, 1024⟩ (0 + 1536) = 512 ∧
    AnimateStep.reschedule (0 : ℚ) ≠ AnimateStep.reschedule 512 := by
  refine ⟨?_, ?_, by simp⟩
  · unfold animateStep
    norm_num
  · unfold wrappedLoopPosition jsMod
    norm_num

/-- C1 (amended).  While the loop region is enabled, a frame whose advanced
position reaches or passes `endTick` triggers exactly one fresh scheduling
pass, from `loopRegion.startTick` (the computed wrapped position
`startTick + (overshoot mod loopLength)` is discarded); a frame that stays
short of `endTick`, or runs with the loop disabled, advances the playhead
and reschedules nothing. -/
theorem c1_loop_wrap_reschedules_from_start (loop : LoopRegion)
    (startFromTick elapsedTicks : ℚ) :
    (loop.isEnabled = true → loop.endTick ≤ startFromTick + elapsedTicks →
      animateStep loop startFromTick elapsedTicks =
        AnimateStep.reschedule loop.startTick) ∧
    (loop.isEnabled = true → startFromTick + elapsedTicks < loop.endTick →
      animateStep loop startFromTick elapsedTicks =
        AnimateStep.advance (startFromTick + elapsedTicks)) ∧
    (loop.isEnabled = false →
      animateStep loop startFromTick elapsedTicks =
        AnimateStep.advance (startFromTick + elapsedTicks)) := by
  refine ⟨?_, ?_, ?_⟩
  · intro he hge
    unfold animateStep
    rw [if_pos ⟨by simp [he], hge⟩]
  · intro he hlt
    unfold animateStep
    rw [if_neg (by
      rintro ⟨-, hc⟩
      exact absurd hc (not_le.mpr hlt))]
  · intro he
    unfold animateStep
    rw [if_neg (by
      rintro ⟨hc, -⟩
      simp [he] at hc)]

/-- Witness for C1 at the spec's own example: loop {0, 1024} enabled,
position advanced to 1536 reschedules from tick 0; position 512 only
advances; a disabled loop at 1536 also only advances. -/
theorem c1_loop_wrap_reschedules_from_start_witness :
    animateStep ⟨true, 0, 1024⟩ 0 1536 = AnimateStep.reschedule 0 ∧
    animateStep ⟨true, 0, 1024⟩ 0 512 = AnimateStep.advance (0 + 512) ∧
    animateStep ⟨false, 0, 1024⟩ 0 1536 = AnimateStep.advance (0 + 1536) :=
  ⟨(c1_loop_wrap_reschedules_from_start ⟨true, 0, 1024⟩ 0 1536).1 rfl (by norm_num),
   (c1_loop_wrap_reschedules_from_start ⟨true, 0, 1024⟩ 0 512).2.1 rfl (by norm_num),
   (c1_loop_wrap_reschedules_from_start ⟨false, 0, 1024⟩ 0 1536).2.2 rfl⟩

/-!
## `stopPlayback` (`DAW.tsx`)

The engine's one mutable resource: the registry of active playback handles
(`activePlaybackSourcesRef`) and the pending animation frame.  `stopPlayback`
cancels the frame, calls `source.stop(0)` on every registered handle (each
call wrapped in try/catch, so the function never throws; the
`if (source.stop)` guard always passes because every value the engine
registers — a synth voice's handle object or an `AudioBufferSourceNode` —
exposes `stop`), and clears the registry.

What `stop(0)` does depends on the handle's kind:
* an `AudioBufferSourceNode` (audio-clip source in `DAW.tsx`, or the node
  `scheduleSamplerPlayback` returns) halts at `max(currentTime, when)` —
  with `when = 0`, immediately;
* the handle `scheduleSynthPlayback` returns (`audioPlayback.ts` 74–82)
  **ignores its `when` argument**: it reads `now = context.currentTime`,
  cancels the scheduled gain automation from `now`, re-anchors the gain at
  its instantaneous value (`setValueAtTime(gainNode.gain.value, now)`, a
  real-time readback carried here only as the anchor time), ramps
  exponentially to 0.0001 at `now + release`, and stops both oscillators at
  `now + release + 0.1`.
-/

/-- The two kinds of stoppable handles the transport registers, with the
data their `stop` implementations read: an `AudioBufferSourceNode`, or a
synth voice carrying its envelope's release time. -/
inductive RegisteredHandle
  | bufferSource
  | synthVoice (release : ℚ)
deriving DecidableEq, Repr

/-- A registry entry of `activePlaybackSourcesRef`. -/
structure SourceHandle where
  id : ℕ
  kind : RegisteredHandle
deriving DecidableEq, Repr

/-- What one `stop(whenArg)` call schedules, per handle kind: an immediate
halt of a buffer source, or the synth handle's release sequence (cancel
automation from `cancelFrom`, exponential ramp to `rampTarget` ending at
`rampEnd`, oscillators stopping at `oscStopTime`). -/
inductive StopEffect
  | immediate (haltTime : ℚ)
  | releaseRamp (cancelFrom rampTarget rampEnd oscStopTime : ℚ)
deriving DecidableEq, Repr

/-- `source.stop(whenArg)` on a handle at audio-clock time `now`.  The
buffer source halts at `max(now, whenArg)`; the synth handle's custom
`stop` never reads `whenArg` and schedules its release from `now`. -/
def handleStop (kind : RegisteredHandle) (whenArg now : ℚ) : StopEffect :=
  match kind with
  | RegisteredHandle.bufferSource => StopEffect.immediate (max now whenArg)
  | RegisteredHandle.synthVoice release =>
      StopEffect.releaseRamp now (1 / 10000) (now + release) (now + release + 1 / 10)

/-- The transport's mutable state: the active-handle registry and whether
an animation frame is pending. -/
structure EngineState where
  activeSources : List SourceHandle
  animationFrameScheduled : Bool
deriving DecidableEq, Repr

/-- `stopPlayback()` at audio-clock time `now`: cancel the pending
animation frame, issue `stop(0)` to every registered handle, clear the
registry.  Embedded as a total function (the source wraps each `stop` in
try/catch and ignores errors), returning the new state and each handle's
stop effect. -/
def stopPlayback (s : EngineState) (now : ℚ) :
    EngineState × List (ℕ × StopEffect) :=
  (⟨[], false⟩,
   s.activeSources.map fun h => (h.id, handleStop h.kind 0 now))

/-- C10 counterexample.  Stopping at clock time 5 a registry holding one
sounding synth voice with release 1/2 does not halt it at time zero: the
issued stop effect is the release ramp, not an immediate halt, and the
voice's oscillators are scheduled to stop at 5 + 1/2 + 1/10 = 5.6, strictly
after the stop call — residual sound — refuting the claim's "immediately
hard-stops (stop at time zero) every currently-sounding ... emission". -/
theorem c10_stop_playback_counterexample :
    (stopPlayback ⟨[⟨1, RegisteredHandle.synthVoice (1/2)⟩], true⟩ 5).2 =
      [(1, StopEffect.releaseRamp 5 (1 / 10000) (5 + 1/2) (5 + 1/2 + 1/10))] ∧
    handleStop (RegisteredHandle.synthVoice (1/2)) 0 5 ≠ StopEffect.immediate 0 ∧
    (5 : ℚ) < 5 + 1/2 + 1/10 := by
  refine ⟨rfl, ?_, by norm_num⟩
  simp [handleStop]

/-- C10 (amended).  `stopPlayback` cancels the polling loop, empties the
registry, and issues `stop(0)` to every registered emission; buffer-source
handles (audio clips and sampler voices) halt immediately at the current
time, but synth-voice handles ignore the requested stop time and schedule
their release ramp instead, stopping their oscillators `release + 0.1`
seconds after the current time.  It is idempotent: a second call starts
from the already-stopped state, issues no stop calls and leaves the same
state, and calling it with nothing scheduled is a no-op (the embedding is a
total function: no call path errors). -/
theorem c10_stop_playback_effects (s : EngineState) (now : ℚ) (hnow : 0 ≤ now) :
    (stopPlayback s now).1.activeSources = [] ∧
    (stopPlayback s now).1.animationFrameScheduled = false ∧
    (∀ h ∈ s.activeSources,
      (h.id, handleStop h.kind 0 now) ∈ (stopPlayback s now).2) ∧
    (∀ h ∈ s.activeSources, h.kind = RegisteredHandle.bufferSource →
      handleStop h.kind 0 now = StopEffect.immediate now) ∧
    (∀ h ∈ s.activeSources, ∀ release : ℚ,
      h.kind = RegisteredHandle.synthVoice release →
      handleStop h.kind 0 now =
        StopEffect.releaseRamp now (1 / 10000) (now + release) (now + release + 1 / 10)) ∧
    stopPlayback (stopPlayback s now).1 now = (⟨[], false⟩, []) ∧
    stopPlayback ⟨[], false⟩ now = (⟨[], false⟩, []) := by
  refine ⟨rfl, rfl, ?_, ?_, ?_, rfl, rfl⟩
  · intro h hh
    unfold stopPlayback
    exact List.mem_map.mpr ⟨h, hh, rfl⟩
  · intro h hh hkind
    rw [hkind]
    unfold handleStop
    rw [max_eq_left hnow]
  · intro h hh release hkind
    rw [hkind]
    rfl

/-- Witness for C10 at clock time 5 with one buffer source and one synth
voice (release 1/2) registered: the registry is emptied, the buffer source
halts at time 5, and the synth voice release-ramps with oscillators
stopping at 5 + 1/2 + 1/10. -/
theorem c10_stop_playback_effects_witness :
    (stopPlayback ⟨[⟨1, RegisteredHandle.bufferSource⟩,
        ⟨2, RegisteredHandle.synthVoice (1/2)⟩], true⟩ 5).1.activeSources = [] ∧
    handleStop RegisteredHandle.bufferSource 0 5 = StopEffect.immediate 5 ∧
    handleStop (RegisteredHandle.synthVoice (1/2)) 0 5 =
      StopEffect.releaseRamp 5 (1 / 10000) (5 + 1/2) (5 + 1/2 + 1/10) := by
  have h := c10_stop_playback_effects
    ⟨[⟨1, RegisteredHandle.bufferSource⟩,
      ⟨2, RegisteredHandle.synthVoice (1/2)⟩], true⟩ 5 (by norm_num)
  exact ⟨h.1,
    h.2.2.2.1 ⟨1, RegisteredHandle.bufferSource⟩ (by simp) rfl,
    h.2.2.2.2.1 ⟨2, RegisteredHandle.synthVoice (1/2)⟩ (by simp) (1/2) rfl⟩

/-!
## Offline renderer: `renderMidiTrackToBuffer` (`audioPlayback.ts`)

The function throws for a non-MIDI or instrument-less track, flattens the
clips' notes to absolute ticks, throws when there are none, computes the
latest note end tick, sizes an `OfflineAudioContext` at
`Math.ceil(44100 * totalDurationSeconds)` frames (44100 Hz) where
`totalDurationSeconds = ticksToSeconds(maxTick, bpm) +
(synth ? envelope.release + 1 : 1)`, schedules every note and renders.
The embedding returns the rendered buffer's frame count (the context
length), `Except.error` standing for the thrown errors.
-/

/-- `types.ts` `MIDIDAWClip` as consumed by the renderer. -/
structure MIDIClipData where
  startTick : ℕ
  durationTicks : ℕ
  notes : List MelodyNote
deriving DecidableEq, Repr

/-- `allNotes`: every clip's notes shifted to absolute ticks
(`note.startTick + clip.startTick`). -/
def renderAllNotes (clips : List MIDIClipData) : List MelodyNote :=
  clips.flatMap fun clip =>
    clip.notes.map fun n => { n with startTick := n.startTick + clip.startTick }

/-- The `maxTick` fold: `allNotes.forEach(note => { const endTick =
note.startTick + note.durationTicks; if (endTick > maxTick) maxTick =
endTick; })` starting from 0. -/
def maxEndTick (clips : List MIDIClipData) : ℕ :=
  (renderAllNotes clips).foldl
    (fun m n => if m < n.startTick + n.durationTicks
      then n.startTick + n.durationTicks else m) 0

/-- The rendering tail: `track.instrument.type === 'synth' ?
track.instrument.params.envelope.release + 1 : 1`. -/
def instTail : Instrument → ℚ
  | Instrument.synth p => p.envelope.release + 1
  | Instrument.sampler _ => 1

/-- `renderMidiTrackToBuffer(track, clips, bpm)`, reduced to the rendered
buffer's frame count. -/
def renderMidiTrackToBufferLength (track : DAWTrack) (clips : List MIDIClipData)
    (bpm : ℚ) : Except String ℕ :=
  if track.trackType = TrackType.midi then
    match track.instrument with
    | some inst =>
        if (renderAllNotes clips).length = 0 then
          Except.error "No notes to render."
        else
          Except.ok ⌈(44100 : ℚ) *
            (ticksToSeconds ((maxEndTick clips : ℕ) : ℚ) bpm + instTail inst)⌉₊
    | none => Except.error "Not a valid MIDI track for rendering."
  else Except.error "Not a valid MIDI track for rendering."

theorem maxEndTick_fold_le (l : List MelodyNote) : ∀ a : ℕ,
    a ≤ l.foldl (fun m n => if m < n.startTick + n.durationTicks
        then n.startTick + n.durationTicks else m) a ∧
    ∀ n ∈ l, n.startTick + n.durationTicks ≤
      l.foldl (fun m n => if m < n.startTick + n.durationTicks
        then n.startTick + n.durationTicks else m) a := by
  induction l with
  | nil => intro a; simp
  | cons x t ih =>
    intro a
    simp only [List.foldl_cons]
    set a2 := if a < x.startTick + x.durationTicks
      then x.startTick + x.durationTicks else a with ha2
    have h1 : a ≤ a2 := by
      rw [ha2]; split <;> omega
    have h2 : x.startTick + x.durationTicks ≤ a2 := by
      rw [ha2]; split <;> omega
    obtain ⟨hle, hall⟩ := ih a2
    refine ⟨le_trans h1 hle, ?_⟩
    intro n hn
    rcases List.mem_cons.mp hn with rfl | hn
    · exact le_trans h2 hle
    · exact hall n hn

/-- C6 counterexample.  A synth track with release = 3/10 and one 26-tick
note at bpm 120 (note end 13/256 s) renders a buffer of
`ceil(44100 * (13/256 + 3/10 + 1)) = 59570` frames — the code adds
`release + 1` seconds of tail — not the `ceil(44100 * (13/256 + 3/10)) =
15470` frames the claim's "tail equal to the instrument's release time"
prescribes. -/
theorem c6_render_length_counterexample :
    renderMidiTrackToBufferLength
        ⟨0, TrackType.midi, false, false, 1, 0,
         some (Instrument.synth
           ⟨⟨"sawtooth", 0⟩, ⟨"square", -10⟩, ⟨1/100, 1/10, 1/2, 3/10⟩,
            ⟨"lowpass", 5000, 1⟩⟩), []⟩
        [⟨0, 1024, [⟨60, 0, 26, 1⟩]⟩] 120 = Except.ok 59570 ∧
    ⌈(44100 : ℚ) * (ticksToSeconds 26 120 + 3/10)⌉₊ = 15470 ∧
    (59570 : ℕ) ≠ 15470 := by
  refine ⟨?_, ?_, by norm_num⟩
  · unfold renderMidiTrackToBufferLength
    rw [if_pos rfl]
    simp only [renderAllNotes, maxEndTick, instTail]
    norm_num
    rw [show ticksToSeconds (26 : ℚ) 120 = 13/256 by
      norm_num [ticksToSeconds, TICKS_PER_QUARTER_NOTE]]
    rw [Nat.ceil_eq_iff (by norm_num)]
    norm_num
  · rw [show ticksToSeconds 26 120 = 13/256 by
      norm_num [ticksToSeconds, TICKS_PER_QUARTER_NOTE]]
    rw [Nat.ceil_eq_iff (by norm_num)]
    norm_num

/-- C6 (amended).  For a MIDI track with an instrument and positive bpm,
`renderMidiTrackToBuffer` fails when there are no notes to render;
otherwise it returns a non-empty buffer whose frame count is the latest
note end tick across all clips converted to seconds, plus a tail of the
instrument's release time plus one second for synths (a fixed one second
for samplers), times 44100 frames per second, rounded up to whole
frames. -/
theorem c6_render_length (track : DAWTrack) (inst : Instrument)
    (clips : List MIDIClipData) (bpm : ℚ)
    (hty : track.trackType = TrackType.midi)
    (hinst : track.instrument = some inst)
    (hbpm : 0 < bpm)
    (htail : 1 ≤ instTail inst) :
    (renderAllNotes clips = [] →
      renderMidiTrackToBufferLength track clips bpm =
        Except.error "No notes to render.") ∧
    (renderAllNotes clips ≠ [] →
      renderMidiTrackToBufferLength track clips bpm =
        Except.ok ⌈(44100 : ℚ) *
          (ticksToSeconds ((maxEndTick clips : ℕ) : ℚ) bpm + instTail inst)⌉₊ ∧
      0 < ⌈(44100 : ℚ) *
          (ticksToSeconds ((maxEndTick clips : ℕ) : ℚ) bpm + instTail inst)⌉₊ ∧
      ∀ n ∈ renderAllNotes clips,
        n.startTick + n.durationTicks ≤ maxEndTick clips) := by
  constructor
  · intro hempty
    unfold renderMidiTrackToBufferLength
    rw [if_pos hty, hinst]
    simp [hempty]
  · intro hne
    have hlen : ¬ (renderAllNotes clips).length = 0 := by
      simpa [List.length_eq_zero] using hne
    refine ⟨?_, ?_, ?_⟩
    · unfold renderMidiTrackToBufferLength
      rw [if_pos hty, hinst]
      simp [hlen]
    · refine Nat.ceil_pos.mpr ?_
      have h1 : 0 ≤ ticksToSeconds ((maxEndTick clips : ℕ) : ℚ) bpm :=
        ticksToSeconds_nonneg (by positivity) hbpm
      nlinarith
    · intro n hn
      exact (maxEndTick_fold_le (renderAllNotes clips) 0).2 n hn

/-- Witness for C6 at the counterexample's input: the render succeeds with
the amended length formula, the buffer is non-empty, and the fold's result
bounds every note's end tick. -/
theorem c6_render_length_witness :
    renderMidiTrackToBufferLength
        ⟨0, TrackType.midi, false, false, 1, 0,
         some (Instrument.synth
           ⟨⟨"sawtooth", 0⟩, ⟨"square", -10⟩, ⟨1/100, 1/10, 1/2, 3/10⟩,
            ⟨"lowpass", 5000, 1⟩⟩), []⟩
        [⟨0, 1024, [⟨60, 0, 26, 1⟩]⟩] 120 =
      Except.ok ⌈(44100 : ℚ) *
        (ticksToSeconds ((maxEndTick [⟨0, 1024, [⟨60, 0, 26, 1⟩]⟩] : ℕ) : ℚ) 120 +
          instTail (Instrument.synth
            ⟨⟨"sawtooth", 0⟩, ⟨"square", -10⟩, ⟨1/100, 1/10, 1/2, 3/10⟩,
             ⟨"lowpass", 5000, 1⟩⟩))⌉₊ ∧
    0 < ⌈(44100 : ℚ) *
        (ticksToSeconds ((maxEndTick [⟨0, 1024, [⟨60, 0, 26, 1⟩]⟩] : ℕ) : ℚ) 120 +
          instTail (Instrument.synth
            ⟨⟨"sawtooth", 0⟩, ⟨"square", -10⟩, ⟨1/100, 1/10, 1/2, 3/10⟩,
             ⟨"lowpass", 5000, 1⟩⟩))⌉₊ := by
  have h := (c6_render_length
      ⟨0, TrackType.midi, false, false, 1, 0,
       some (Instrument.synth
         ⟨⟨"sawtooth", 0⟩, ⟨"square", -10⟩, ⟨1/100, 1/10, 1/2, 3/10⟩,
          ⟨"lowpass", 5000, 1⟩⟩), []⟩
      (Instrument.synth
         ⟨⟨"sawtooth", 0⟩, ⟨"square", -10⟩, ⟨1/100, 1/10, 1/2, 3/10⟩,
          ⟨"lowpass", 5000, 1⟩⟩)
      [⟨0, 1024, [⟨60, 0, 26, 1⟩]⟩] 120 rfl rfl (by norm_num)
      (by norm_num [instTail])).2 (by simp [renderAllNotes])
  exact ⟨h.1, h.2.1⟩
